import Mathlib

/-
Verification of the `markdown` Go library (github.com/ms1963/markdown).

The repository contains two near-identical implementations of the same
library (here called V1 and V2):

- V1 is the variant whose `Markdown` struct carries `flavor` / `useColor`,
  whose `Heading` takes an `attributes` argument, and whose operations are
  guarded against empty / malformed input (`markdown.go` with the
  guarded Table/TaskList/Heading bodies; a second file duplicates it
  verbatim with doc comments added).
- V2 is the variant whose `Markdown` struct carries a `headings` log and
  offers `TableOfContents`; its operations are unguarded (its `TaskList`
  indexes `checked[i]` without a bounds check, so it can panic).

Go strings are modelled as Lean `String`; `strings.Builder` is modelled as
a `String` field, with a sequence of `WriteString` calls in one method body
modelled as a single append of the concatenation of the written fragments
(no method reads the builder between writes, so this is faithful).
Go slices are `List`, Go `map[string]string` is an association list
(`List (String × String)`) with `List.lookup` for indexing; Go `int` is
`Int`.  Code that can panic (V2's `TaskList`) returns `Option`.
-/

/-- `strings.Repeat s n`: `s` concatenated `n` times. -/
def goRepeat (s : String) : Nat → String
  | 0 => ""
  | n + 1 => s ++ goRepeat s n

/-- Concatenation of a list of strings (used to model loops that write one
fragment per element). -/
def strConcat : List String → String
  | [] => ""
  | s :: rest => s ++ strConcat rest

/-- One `strings.ReplaceAll(text, string(c), "\\" + string(c))` pass over a
string viewed as a character list: the pattern is the single character `c`
and the replacement is a backslash followed by `c`. -/
def escapeStep (s : List Char) (c : Char) : List Char :=
  s.flatMap (fun x => if x = c then ['\\', c] else [x])

/-- `strings.ReplaceAll(s, "\n", "<br>")` as used by `ToHTML`. -/
def goReplaceNewlines (s : String) : String :=
  ⟨s.data.flatMap (fun c => if c = '\n' then "<br>".data else [c])⟩

/-- The table header row template `"| " + strings.Join(headers, " | ") + " |\n"`. -/
def headerLineOf (headers : List String) : String :=
  "| " ++ String.intercalate " | " headers ++ " |\n"

/-- The table data row template `"| " + strings.Join(row, " | ") + " |\n"`. -/
def rowLineOf (row : List String) : String :=
  "| " ++ String.intercalate " | " row ++ " |\n"

namespace V1

/-- The guarded variant's `Markdown` struct: a `strings.Builder` plus the
construction-time configuration (flavor, color flag). -/
structure Markdown where
  content : String
  flavor : Int
  useColor : Bool
deriving DecidableEq

/-- `New(flavor, useColor)`. -/
def New (flavor : Int) (useColor : Bool) : Markdown :=
  { content := "", flavor := flavor, useColor := useColor }

/-- `FrontMatter`: fences, then one `key: "value"` line for each of the
fixed keys `title`, `author`, `date` (in that order) present in the map. -/
def Markdown.FrontMatter (md : Markdown) (metadata : List (String × String)) : Markdown :=
  let lines := ["title", "author", "date"].foldl (fun acc key =>
    match metadata.lookup key with
    | some value => acc ++ (key ++ ": \"" ++ value ++ "\"\n")
    | none => acc) ""
  { md with content := md.content ++ ("---\n" ++ lines ++ "---\n\n") }

/-- `Heading(level, text, id, attributes)`: clamps the level into `[1,6]`,
refuses empty text, optionally appends ` {#id}` and ` {attributes}`. -/
def Markdown.Heading (md : Markdown) (level : Int) (text id attributes : String) : Markdown :=
  let lvl : Int := if level < 1 || level > 6 then 1 else level
  if text = "" then md
  else
    let header := goRepeat "#" lvl.toNat ++ " " ++ text
    let header := if id ≠ "" then header ++ (" \x7b#" ++ id ++ "\x7d") else header
    let header := if attributes ≠ "" then header ++ (" \x7b" ++ attributes ++ "\x7d") else header
    { md with content := md.content ++ (header ++ "\n\n") }

/-- One arm of V1's `ApplyFormatting` switch. -/
def formatOnceV1 (text : String) (format : String) : String :=
  match format with
  | "strikethrough" => "~~" ++ text ++ "~~"
  | "bold" => "**" ++ text ++ "**"
  | "italic" => "_" ++ text ++ "_"
  | "underline" => "<u>" ++ text ++ "</u>"
  | "subscript" => "<sub>" ++ text ++ "</sub>"
  | "superscript" => "<sup>" ++ text ++ "</sup>"
  | "code" => "\x60" ++ text ++ "\x60"
  | _ => text

/-- `ApplyFormatting` iterates the format list in reverse (`for i := len-1;
i >= 0; i--`), so the last-listed format is applied first; `List.foldr`
applies the list's last element innermost, which is exactly that loop. -/
def Markdown.ApplyFormatting (md : Markdown) (text : String) (formats : List String) : String :=
  formats.foldr (fun format text => formatOnceV1 text format) text

/-- `Paragraph`: skip empty text, else apply formatting and append. -/
def Markdown.Paragraph (md : Markdown) (text : String) (formats : List String) : Markdown :=
  if text = "" then md
  else { md with content := md.content ++ (md.ApplyFormatting text formats ++ "\n\n") }

/-- `CodeBlock(language, code)`. -/
def Markdown.CodeBlock (md : Markdown) (language code : String) : Markdown :=
  if code = "" then md
  else { md with content := md.content ++ ("\x60\x60\x60" ++ language ++ "\n" ++ code ++ "\n\x60\x60\x60\n\n") }

/-- `ReferenceLink(label, text, url)`. -/
def Markdown.ReferenceLink (md : Markdown) (label text url : String) : Markdown :=
  if label = "" || text = "" || url = "" then md
  else { md with content := md.content ++
    ("[" ++ label ++ "]: " ++ text ++ "\n" ++ "[" ++ text ++ "](" ++ url ++ ")\n\n") }

/-- `Image(altText, url)`. -/
def Markdown.Image (md : Markdown) (altText url : String) : Markdown :=
  if altText = "" || url = "" then md
  else { md with content := md.content ++ ("![" ++ altText ++ "](" ++ url ++ ")\n\n") }

/-- `List(items, isOrdered)`: `N. item` (1-based) or `- item` per item.
(The Go method is named `List`; that name collides with the Lean builtin,
hence `ListBlock` here.) -/
def Markdown.ListBlock (md : Markdown) (items : List String) (isOrdered : Bool) : Markdown :=
  if items.isEmpty then md
  else
    let body := strConcat (items.enum.map (fun (i, item) =>
      if isOrdered then toString (i + 1) ++ ". " ++ item ++ "\n"
      else "- " ++ item ++ "\n"))
    { md with content := md.content ++ (body ++ "\n") }

/-- `NestedList(nestedItems, isOrdered)`: when ordered, every line of group
`i` is numbered `i+1`; when unordered, the first entry of a group is a
top-level bullet and the rest are indented two spaces. -/
def Markdown.NestedList (md : Markdown) (nestedItems : List (List String)) (isOrdered : Bool) :
    Markdown :=
  if nestedItems.isEmpty then md
  else
    let body := strConcat (nestedItems.enum.map (fun (i, items) =>
      if isOrdered then
        strConcat (items.map (fun item => toString (i + 1) ++ ". " ++ item ++ "\n"))
      else
        strConcat (items.enum.map (fun (j, item) =>
          if j = 0 then "- " ++ item ++ "\n" else "  - " ++ item ++ "\n"))))
    { md with content := md.content ++ (body ++ "\n") }

/-- V1's `switch` mapping one `align` entry to one alignment cell (the
cell carries its closing pipe; the row starts from a lone `"|"`). -/
def alignCell (a : String) : String :=
  if a = "left" then ":---|"
  else if a = "center" then ":---:|"
  else if a = "right" then "---:|"
  else "---|"

/-- `Table(headers, rows, align)`: no-op when headers or rows are empty;
rows whose length differs from the header count are skipped (`continue`). -/
def Markdown.Table (md : Markdown) (headers : List String) (rows : List (List String))
    (align : List String) : Markdown :=
  if headers.isEmpty || rows.isEmpty then md
  else
    let headerLine := headerLineOf headers
    let alignment := align.foldl (fun acc a => acc ++ alignCell a) "|"
    let rowsPart := rows.foldl (fun acc row =>
      if row.length ≠ headers.length then acc
      else acc ++ rowLineOf row) ""
    { md with content := md.content ++ (headerLine ++ alignment ++ "\n" ++ rowsPart ++ "\n") }

/-- `Blockquote(text)`. -/
def Markdown.Blockquote (md : Markdown) (text : String) : Markdown :=
  if text = "" then md
  else { md with content := md.content ++ ("> " ++ text ++ "\n\n") }

/-- `HorizontalRule()`. -/
def Markdown.HorizontalRule (md : Markdown) : Markdown :=
  { md with content := md.content ++ "---\n\n" }

/-- `Footnote(label, text)`. -/
def Markdown.Footnote (md : Markdown) (label text : String) : Markdown :=
  if label = "" || text = "" then md
  else { md with content := md.content ++
    ("[" ++ label ++ "]: " ++ text ++ " [Return to text](#fn-" ++ label ++ "-back)\n") }

/-- `MultiLineFootnote(label, lines)`. -/
def Markdown.MultiLineFootnote (md : Markdown) (label : String) (lines : List String) : Markdown :=
  if label = "" || lines.isEmpty then md
  else { md with content := md.content ++
    ("[" ++ label ++ "]: " ++ strConcat (lines.map (fun line => line ++ "\n")) ++
      "[Return to text](#fn-" ++ label ++ "-back)\n\n") }

/-- `DefinitionList(definitions)`: hard-coded lookups of "Term 1" and
"Term 2" (a Go map read of a missing key yields the zero value `[]`). -/
def Markdown.DefinitionList (md : Markdown) (definitions : List (String × List String)) :
    Markdown :=
  if definitions.isEmpty then md
  else
    let orderedDefs : List (String × List String) :=
      [("Term 1", (definitions.lookup "Term 1").getD []),
       ("Term 2", (definitions.lookup "Term 2").getD [])]
    let body := strConcat (orderedDefs.map (fun (term, defs) =>
      if term = "" || defs.isEmpty then ""
      else term ++ "\n" ++ strConcat (defs.map (fun d => ": " ++ d ++ "\n")) ++ "\n"))
    { md with content := md.content ++ body }

/-- The character set of V1's `Escape`.  The Go source builds it as the raw
string literal `` `\\` `` concatenated with ``"`*_{[]}()#+-.!"``; in a raw
string `\\` is TWO backslash characters, so the backslash occurs twice. -/
def specialCharsV1 : List Char :=
  ['\\', '\\', '\x60', '*', '_', '\x7b', '[', ']', '\x7d', '(', ')', '#', '+', '-', '.', '!']

/-- `Escape(text)`: iterated whole-string `ReplaceAll`, one pass per
character of `specialCharsV1`, in order. -/
def Markdown.Escape (md : Markdown) (text : String) : String :=
  ⟨specialCharsV1.foldl escapeStep text.data⟩

/-- `CustomDiv(className, content)`. -/
def Markdown.CustomDiv (md : Markdown) (className c : String) : Markdown :=
  if c = "" then md
  else { md with content := md.content ++ ("::: " ++ className ++ "\n" ++ c ++ "\n:::\n\n") }

/-- The per-item lines of V1's `TaskList` loop: the checked flag is read
only when the index is in range (`i < len(checked) && checked[i]`), and
items with empty text are skipped (`continue`).  The indexed loop is
modelled by consuming `items` and `checked` in lockstep. -/
def taskLinesV1 : List String → List Bool → String
  | [], _ => ""
  | item :: items, checked =>
    (if item = "" then ""
     else "- [" ++ (if checked.headD false then "x" else " ") ++ "] " ++ item ++ "\n") ++
    taskLinesV1 items checked.tail

/-- `TaskList(items, checked)`: guarded against empty `items`; never reads
`checked` out of range. -/
def Markdown.TaskList (md : Markdown) (items : List String) (checked : List Bool) : Markdown :=
  if items.isEmpty then md
  else { md with content := md.content ++ (taskLinesV1 items checked ++ "\n") }

/-- `MermaidDiagram(diagram)`. -/
def Markdown.MermaidDiagram (md : Markdown) (diagram : String) : Markdown :=
  if diagram = "" then md
  else { md with content := md.content ++ ("\x60\x60\x60mermaid\n" ++ diagram ++ "\n\x60\x60\x60\n\n") }

/-- `MathBlock(equation)`. -/
def Markdown.MathBlock (md : Markdown) (equation : String) : Markdown :=
  if equation = "" then md
  else { md with content := md.content ++ ("$$\n" ++ equation ++ "\n$$\n\n") }

/-- `Underline(text)`. -/
def Markdown.Underline (md : Markdown) (text : String) : String :=
  "<u>" ++ text ++ "</u>"

/-- `Subscript(text)`. -/
def Markdown.Subscript (md : Markdown) (text : String) : String :=
  "<sub>" ++ text ++ "</sub>"

/-- `Superscript(text)`. -/
def Markdown.Superscript (md : Markdown) (text : String) : String :=
  "<sup>" ++ text ++ "</sup>"

/-- `ColorText(text, color)`: wraps in a span only when `useColor` is set. -/
def Markdown.ColorText (md : Markdown) (text color : String) : String :=
  if md.useColor then "<span style=\"color:" ++ color ++ "\">" ++ text ++ "</span>"
  else text

/-- `GetContent()`. -/
def Markdown.GetContent (md : Markdown) : String :=
  md.content

/-- `ToHTML()`: newline-to-`<br>` substitution wrapped in `<html>` tags. -/
def Markdown.ToHTML (md : Markdown) : String :=
  "<html>" ++ goReplaceNewlines md.GetContent ++ "</html>"

/-- The mutating operations of the V1 API, with their arguments. -/
inductive Op where
  | frontMatter (metadata : List (String × String))
  | heading (level : Int) (text id attributes : String)
  | paragraph (text : String) (formats : List String)
  | codeBlock (language code : String)
  | referenceLink (label text url : String)
  | image (altText url : String)
  | list (items : List String) (isOrdered : Bool)
  | nestedList (nestedItems : List (List String)) (isOrdered : Bool)
  | table (headers : List String) (rows : List (List String)) (align : List String)
  | blockquote (text : String)
  | horizontalRule
  | footnote (label text : String)
  | multiLineFootnote (label : String) (lines : List String)
  | definitionList (definitions : List (String × List String))
  | customDiv (className c : String)
  | taskList (items : List String) (checked : List Bool)
  | mermaidDiagram (diagram : String)
  | mathBlock (equation : String)

/-- Dispatch one V1 operation. -/
def apply (op : Op) (md : Markdown) : Markdown :=
  match op with
  | .frontMatter metadata => md.FrontMatter metadata
  | .heading level text id attributes => md.Heading level text id attributes
  | .paragraph text formats => md.Paragraph text formats
  | .codeBlock language code => md.CodeBlock language code
  | .referenceLink label text url => md.ReferenceLink label text url
  | .image altText url => md.Image altText url
  | .list items isOrdered => md.ListBlock items isOrdered
  | .nestedList nestedItems isOrdered => md.NestedList nestedItems isOrdered
  | .table headers rows align => md.Table headers rows align
  | .blockquote text => md.Blockquote text
  | .horizontalRule => md.HorizontalRule
  | .footnote label text => md.Footnote label text
  | .multiLineFootnote label lines => md.MultiLineFootnote label lines
  | .definitionList definitions => md.DefinitionList definitions
  | .customDiv className c => md.CustomDiv className c
  | .taskList items checked => md.TaskList items checked
  | .mermaidDiagram diagram => md.MermaidDiagram diagram
  | .mathBlock equation => md.MathBlock equation

/-- The pure query methods of V1 (no `WriteString` occurs in their
bodies, which the state-passing embedding below makes explicit). -/
inductive QueryOp where
  | escape (text : String)
  | colorText (text color : String)
  | toHTML
  | getContent

/-- Run a query: the returned `Markdown` is the receiver's state when the
method returns; each body contains no write to `content`, so it is the
input state. -/
def runQuery (q : QueryOp) (md : Markdown) : String × Markdown :=
  match q with
  | .escape text => (md.Escape text, md)
  | .colorText text color => (md.ColorText text color, md)
  | .toHTML => (md.ToHTML, md)
  | .getContent => (md.GetContent, md)

end V1

namespace V2

/-- The heading-log entry (`type Heading struct` in the source): the
rendered heading text (hashes, space, text — without the anchor suffix)
and the anchor id. -/
structure Heading where
  Text : String
  ID : String
deriving DecidableEq

/-- The TOC variant's `Markdown` struct: builder plus heading log. -/
structure Markdown where
  content : String
  headings : List Heading
deriving DecidableEq

/-- `New()`. -/
def New : Markdown :=
  { content := "", headings := [] }

/-- `FrontMatter`: fences around one `key: "value"` line per map entry.
Go map iteration order is unspecified; the model iterates the association
list in list order (any order satisfies the properties proved here). -/
def Markdown.FrontMatter (md : Markdown) (metadata : List (String × String)) : Markdown :=
  let lines := metadata.foldl (fun acc kv => acc ++ (kv.1 ++ ": \"" ++ kv.2 ++ "\"\n")) ""
  { md with content := md.content ++ ("---\n" ++ lines ++ "---\n\n") }

/-- `Heading(level, text, id)`: clamps the level, appends the rendered
heading (there is NO empty-text guard in this variant), and records a
`Heading` in the log. -/
def Markdown.Heading (md : Markdown) (level : Int) (text id : String) : Markdown :=
  let lvl : Int := if level < 1 || level > 6 then 1 else level
  let headingText := goRepeat "#" lvl.toNat ++ " " ++ text
  { md with
    content := md.content ++
      (headingText ++ (if id ≠ "" then " \x7b#" ++ id ++ "\x7d" else "") ++ "\n\n"),
    headings := md.headings ++ [{ Text := headingText, ID := id }] }

/-- One bullet line of `TableOfContents` for one logged heading. -/
def tocLine (h : Heading) : String :=
  if h.ID ≠ "" then "- " ++ h.Text ++ " \x7b#" ++ h.ID ++ "\x7d\n"
  else "- " ++ h.Text ++ "\n"

/-- `TableOfContents()`: replays the heading log, in order, as bullets. -/
def Markdown.TableOfContents (md : Markdown) : Markdown :=
  let body := md.headings.foldl (fun acc h => acc ++ tocLine h) ""
  { md with content := md.content ++ ("## Table of Contents\n" ++ body ++ "\n") }

/-- `Bold`. -/
def Markdown.Bold (md : Markdown) (text : String) : String :=
  "**" ++ text ++ "**"

/-- `Italic`. -/
def Markdown.Italic (md : Markdown) (text : String) : String :=
  "_" ++ text ++ "_"

/-- `Strikethrough`. -/
def Markdown.Strikethrough (md : Markdown) (text : String) : String :=
  "~~" ++ text ++ "~~"

/-- `InlineCode`. -/
def Markdown.InlineCode (md : Markdown) (text : String) : String :=
  "\x60" ++ text ++ "\x60"

/-- One arm of V2's `applyFormatting` switch (only four formats). -/
def formatOnceV2 (md : Markdown) (text : String) (format : String) : String :=
  match format with
  | "bold" => md.Bold text
  | "italic" => md.Italic text
  | "strikethrough" => md.Strikethrough text
  | "code" => md.InlineCode text
  | _ => text

/-- `applyFormatting` iterates the format list FORWARD (`for _, format :=
range formats`), so the first-listed format is applied first. -/
def Markdown.applyFormatting (md : Markdown) (text : String) (formats : List String) : String :=
  formats.foldl (fun text format => formatOnceV2 md text format) text

/-- `Paragraph`: no emptiness guard in this variant. -/
def Markdown.Paragraph (md : Markdown) (text : String) (formats : List String) : Markdown :=
  { md with content := md.content ++ (md.applyFormatting text formats ++ "\n\n") }

/-- `MathBlock`. -/
def Markdown.MathBlock (md : Markdown) (equation : String) : Markdown :=
  { md with content := md.content ++ ("$$\n" ++ equation ++ "\n$$\n\n") }

/-- `MermaidDiagram`. -/
def Markdown.MermaidDiagram (md : Markdown) (diagram : String) : Markdown :=
  { md with content := md.content ++ ("\x60\x60\x60mermaid\n" ++ diagram ++ "\n\x60\x60\x60\n\n") }

/-- `CustomDiv`. -/
def Markdown.CustomDiv (md : Markdown) (className c : String) : Markdown :=
  { md with content := md.content ++ ("::: " ++ className ++ "\n" ++ c ++ "\n:::\n\n") }

/-- `Emoji`. -/
def Markdown.Emoji (md : Markdown) (emoji : String) : Markdown :=
  { md with content := md.content ++ (":" ++ emoji ++ ":\n\n") }

/-- `AutoLink`. -/
def Markdown.AutoLink (md : Markdown) (url : String) : Markdown :=
  { md with content := md.content ++ ("<" ++ url ++ ">\n\n") }

/-- `Image`. -/
def Markdown.Image (md : Markdown) (altText url : String) : Markdown :=
  { md with content := md.content ++ ("![" ++ altText ++ "](" ++ url ++ ")\n\n") }

/-- `CodeBlock`. -/
def Markdown.CodeBlock (md : Markdown) (language code : String) : Markdown :=
  { md with content := md.content ++ ("\x60\x60\x60" ++ language ++ "\n" ++ code ++ "\n\x60\x60\x60\n\n") }

/-- `UnorderedList`. -/
def Markdown.UnorderedList (md : Markdown) (items : List String) : Markdown :=
  { md with content := md.content ++ (strConcat (items.map (fun item => "- " ++ item ++ "\n")) ++ "\n") }

/-- `OrderedList`. -/
def Markdown.OrderedList (md : Markdown) (items : List String) : Markdown :=
  { md with content := md.content ++
    (strConcat (items.enum.map (fun (i, item) => toString (i + 1) ++ ". " ++ item ++ "\n")) ++ "\n") }

/-- `NestedList(lists, isOrdered)`: every entry of a group is indented by
its own index (`level`), numbered `level+1` when ordered. -/
def Markdown.NestedList (md : Markdown) (lists : List (List String)) (isOrdered : Bool) :
    Markdown :=
  let body := strConcat (lists.map (fun list =>
    strConcat (list.enum.map (fun (level, item) =>
      let indent := goRepeat "  " level
      if isOrdered then indent ++ toString (level + 1) ++ ". " ++ item ++ "\n"
      else indent ++ "- " ++ item ++ "\n"))))
  { md with content := md.content ++ (body ++ "\n") }

/-- The per-item lines of V2's `TaskList` loop, which reads `checked[i]`
with NO bounds check: the indexed loop is modelled in lockstep, and
exhausting `checked` before `items` is the out-of-range panic (`none`). -/
def taskLinesV2 : List String → List Bool → Option String
  | [], _ => some ""
  | item :: items, checked =>
    match checked with
    | [] => none
    | c :: rest =>
      (taskLinesV2 items rest).map (fun s =>
        "- [" ++ (if c then "x" else " ") ++ "] " ++ item ++ "\n" ++ s)

/-- `TaskList(items, checked)`: panics (`none`) when `checked` is shorter
than `items`; no empty-item skip in this variant. -/
def Markdown.TaskList (md : Markdown) (items : List String) (checked : List Bool) :
    Option Markdown :=
  (taskLinesV2 items checked).map (fun body =>
    { md with content := md.content ++ (body ++ "\n") })

/-- V2's `switch` mapping one `align` entry to one alignment cell (the
cell carries its opening pipe; a final `"|"` closes the row). -/
def alignCellV2 (a : String) : String :=
  if a = "left" then "|:---"
  else if a = "center" then "|:---:"
  else if a = "right" then "|---:"
  else "|---"

/-- `Table(headers, rows, align)`: no emptiness guard, no row-length
check; the alignment string is built as `|cell` per entry and closed with
a final `|`. -/
def Markdown.Table (md : Markdown) (headers : List String) (rows : List (List String))
    (align : List String) : Markdown :=
  let alignment := align.foldl (fun acc a => acc ++ alignCellV2 a) ""
  { md with content := md.content ++
    (headerLineOf headers ++ alignment ++ "|\n" ++ strConcat (rows.map rowLineOf) ++ "\n") }

/-- `Footnote`. -/
def Markdown.Footnote (md : Markdown) (label text : String) : Markdown :=
  { md with content := md.content ++
    ("[" ++ label ++ "]: " ++ text ++ " [Return to text](#fn-" ++ label ++ "-back)\n") }

/-- `MultiLineFootnote`. -/
def Markdown.MultiLineFootnote (md : Markdown) (label : String) (lines : List String) : Markdown :=
  { md with content := md.content ++
    ("[" ++ label ++ "]: " ++ strConcat (lines.map (fun line => line ++ "\n")) ++
      "[Return to text](#fn-" ++ label ++ "-back)\n\n") }

/-- `Blockquote`. -/
def Markdown.Blockquote (md : Markdown) (text : String) : Markdown :=
  { md with content := md.content ++ ("> " ++ text ++ "\n\n") }

/-- `HorizontalRule`. -/
def Markdown.HorizontalRule (md : Markdown) : Markdown :=
  { md with content := md.content ++ "---\n\n" }

/-- The character set of V2's `Escape`: a slice of interpreted string
literals, so the backslash occurs exactly ONCE (and first). -/
def specialCharsV2 : List Char :=
  ['\\', '\x60', '*', '_', '\x7b', '\x7d', '[', ']', '(', ')', '#', '+', '-', '.', '!']

/-- `Escape(text)`: iterated whole-string `ReplaceAll`, one pass per
character of `specialCharsV2`, in order. -/
def Markdown.Escape (md : Markdown) (text : String) : String :=
  ⟨specialCharsV2.foldl escapeStep text.data⟩

/-- `GetContent()`. -/
def Markdown.GetContent (md : Markdown) : String :=
  md.content

/-- `ToHTML()`. -/
def Markdown.ToHTML (md : Markdown) : String :=
  "<html>" ++ goReplaceNewlines md.GetContent ++ "</html>"

/-- The mutating operations of the V2 API, with their arguments. -/
inductive Op where
  | frontMatter (metadata : List (String × String))
  | heading (level : Int) (text id : String)
  | tableOfContents
  | paragraph (text : String) (formats : List String)
  | mathBlock (equation : String)
  | mermaidDiagram (diagram : String)
  | customDiv (className c : String)
  | emoji (e : String)
  | autoLink (url : String)
  | image (altText url : String)
  | codeBlock (language code : String)
  | unorderedList (items : List String)
  | orderedList (items : List String)
  | nestedList (lists : List (List String)) (isOrdered : Bool)
  | taskList (items : List String) (checked : List Bool)
  | table (headers : List String) (rows : List (List String)) (align : List String)
  | footnote (label text : String)
  | multiLineFootnote (label : String) (lines : List String)
  | blockquote (text : String)
  | horizontalRule

/-- Dispatch one V2 operation; `none` is a panic (only `TaskList` can). -/
def apply (op : Op) (md : Markdown) : Option Markdown :=
  match op with
  | .frontMatter metadata => some (md.FrontMatter metadata)
  | .heading level text id => some (md.Heading level text id)
  | .tableOfContents => some md.TableOfContents
  | .paragraph text formats => some (md.Paragraph text formats)
  | .mathBlock equation => some (md.MathBlock equation)
  | .mermaidDiagram diagram => some (md.MermaidDiagram diagram)
  | .customDiv className c => some (md.CustomDiv className c)
  | .emoji e => some (md.Emoji e)
  | .autoLink url => some (md.AutoLink url)
  | .image altText url => some (md.Image altText url)
  | .codeBlock language code => some (md.CodeBlock language code)
  | .unorderedList items => some (md.UnorderedList items)
  | .orderedList items => some (md.OrderedList items)
  | .nestedList lists isOrdered => some (md.NestedList lists isOrdered)
  | .taskList items checked => md.TaskList items checked
  | .table headers rows align => some (md.Table headers rows align)
  | .footnote label text => some (md.Footnote label text)
  | .multiLineFootnote label lines => some (md.MultiLineFootnote label lines)
  | .blockquote text => some (md.Blockquote text)
  | .horizontalRule => some md.HorizontalRule

/-- Run a whole call sequence (stops at a panic). -/
def applyOps (ops : List Op) (md : Markdown) : Option Markdown :=
  ops.foldlM (fun m op => apply op m) md

end V2

/-! ## Basic facts about string append -/

theorem strAppend_assoc (a b c : String) : a ++ b ++ c = a ++ (b ++ c) := by
  apply String.ext
  show (a.data ++ b.data) ++ c.data = a.data ++ (b.data ++ c.data)
  exact List.append_assoc _ _ _

theorem strAppend_empty (a : String) : a ++ "" = a := by
  apply String.ext
  show a.data ++ [] = a.data
  exact List.append_nil _

theorem strEmpty_append (a : String) : "" ++ a = a := by
  apply String.ext
  show [] ++ a.data = a.data
  rfl

/-- A left fold that appends one fragment per element equals the initial
string followed by the concatenation of all fragments. -/
theorem foldl_append_strConcat {α : Type} (f : α → String) (l : List α) (init : String) :
    l.foldl (fun acc a => acc ++ f a) init = init ++ strConcat (l.map f) := by
  induction l generalizing init with
  | nil => simp [strConcat, strAppend_empty]
  | cons x xs ih => simp [strConcat, ih, strAppend_assoc]

/-! ## Spec-side descriptions (written from the spec's words, to be
compared with the code-side definitions above) -/

/-- The spec's level clamp: `level` when `1 ≤ level ≤ 6`, else 1. -/
def clampNat (level : Int) : Nat :=
  if 1 ≤ level ∧ level ≤ 6 then level.toNat else 1

/-- The spec's heading fragment: `clamp(level)` hashes, a space, the text,
` {#id}` when an id is supplied, two newlines, and nothing else. -/
def headingFragment (level : Int) (text id : String) : String :=
  goRepeat "#" (clampNat level) ++ " " ++ text ++
    (if id = "" then "" else " \x7b#" ++ id ++ "\x7d") ++ "\n\n"

/-- The spec's front-matter lines: one `key: "value"` line for exactly the
keys `title`, `author`, `date` present in the mapping, in that order. -/
def frontMatterLines (metadata : List (String × String)) : List String :=
  ["title", "author", "date"].filterMap (fun key =>
    (metadata.lookup key).map (fun value => key ++ ": \"" ++ value ++ "\"\n"))

/-- The spec's alignment row: one cell per `align` entry. -/
def alignRowOf (align : List String) : String :=
  "|" ++ strConcat (align.map V1.alignCell) ++ "\n"

/-- The heading record one V2 operation contributes to the log. -/
def opHeadingRecords (op : V2.Op) : List V2.Heading :=
  match op with
  | .heading level text id =>
    [{ Text := goRepeat "#" (if level < 1 || level > 6 then (1 : Int) else level).toNat ++
        " " ++ text, ID := id }]
  | _ => []

/-- The heading records a V2 call sequence contributes, in call order. -/
def headingRecords : List V2.Op → List V2.Heading
  | [] => []
  | op :: ops => opHeadingRecords op ++ headingRecords ops

/-! ## Helper lemmas: every operation only appends to the buffer -/

theorem v1_apply_extends (op : V1.Op) (md : V1.Markdown) :
    ∃ t, (V1.apply op md).content = md.content ++ t := by
  cases op <;>
    dsimp only [V1.apply, V1.Markdown.FrontMatter, V1.Markdown.Heading, V1.Markdown.Paragraph,
      V1.Markdown.CodeBlock, V1.Markdown.ReferenceLink, V1.Markdown.Image, V1.Markdown.ListBlock,
      V1.Markdown.NestedList, V1.Markdown.Table, V1.Markdown.Blockquote,
      V1.Markdown.HorizontalRule, V1.Markdown.Footnote, V1.Markdown.MultiLineFootnote,
      V1.Markdown.DefinitionList, V1.Markdown.CustomDiv, V1.Markdown.TaskList,
      V1.Markdown.MermaidDiagram, V1.Markdown.MathBlock] <;>
    first
      | exact ⟨_, rfl⟩
      | (split <;> first
          | exact ⟨"", (strAppend_empty _).symm⟩
          | exact ⟨_, rfl⟩)

theorem v2_apply_extends (op : V2.Op) (md md' : V2.Markdown) (h : V2.apply op md = some md') :
    ∃ t, md'.content = md.content ++ t := by
  cases op <;>
    simp only [V2.apply, V2.Markdown.FrontMatter, V2.Markdown.Heading,
      V2.Markdown.TableOfContents, V2.Markdown.Paragraph, V2.Markdown.MathBlock,
      V2.Markdown.MermaidDiagram, V2.Markdown.CustomDiv, V2.Markdown.Emoji,
      V2.Markdown.AutoLink, V2.Markdown.Image, V2.Markdown.CodeBlock,
      V2.Markdown.UnorderedList, V2.Markdown.OrderedList, V2.Markdown.NestedList,
      V2.Markdown.TaskList, V2.Markdown.Table, V2.Markdown.Footnote,
      V2.Markdown.MultiLineFootnote, V2.Markdown.Blockquote, V2.Markdown.HorizontalRule,
      Option.some.injEq, Option.map_eq_some'] at h
  case taskList items checked =>
    obtain ⟨body, hbody, rfl⟩ := h
    exact ⟨_, rfl⟩
  all_goals subst h; exact ⟨_, rfl⟩

theorem v2_apply_headings (op : V2.Op) (md md' : V2.Markdown) (h : V2.apply op md = some md') :
    md'.headings = md.headings ++ opHeadingRecords op := by
  cases op <;>
    simp only [V2.apply, V2.Markdown.FrontMatter, V2.Markdown.Heading,
      V2.Markdown.TableOfContents, V2.Markdown.Paragraph, V2.Markdown.MathBlock,
      V2.Markdown.MermaidDiagram, V2.Markdown.CustomDiv, V2.Markdown.Emoji,
      V2.Markdown.AutoLink, V2.Markdown.Image, V2.Markdown.CodeBlock,
      V2.Markdown.UnorderedList, V2.Markdown.OrderedList, V2.Markdown.NestedList,
      V2.Markdown.TaskList, V2.Markdown.Table, V2.Markdown.Footnote,
      V2.Markdown.MultiLineFootnote, V2.Markdown.Blockquote, V2.Markdown.HorizontalRule,
      Option.some.injEq, Option.map_eq_some'] at h
  case taskList items checked =>
    obtain ⟨body, hbody, rfl⟩ := h
    simp [opHeadingRecords]
  all_goals subst h; simp [opHeadingRecords]

theorem applyOps_headings (ops : List V2.Op) :
    ∀ md md' : V2.Markdown, V2.applyOps ops md = some md' →
      md'.headings = md.headings ++ headingRecords ops := by
  induction ops with
  | nil =>
    intro md md' h
    cases h
    simp [headingRecords]
  | cons op ops ih =>
    intro md md' h
    have h0 : (V2.apply op md).bind (fun m => V2.applyOps ops m) = some md' := h
    cases hop : V2.apply op md with
    | none => rw [hop] at h0; simp at h0
    | some mid =>
      rw [hop] at h0
      simp only [Option.some_bind] at h0
      have e1 := v2_apply_headings op md mid hop
      have e2 := ih mid md' h0
      rw [e2, e1, headingRecords, List.append_assoc]

theorem v2_toc_content (md : V2.Markdown) :
    md.TableOfContents.content =
      md.content ++
        ("## Table of Contents\n" ++ strConcat (md.headings.map V2.tocLine) ++ "\n") := by
  simp only [V2.Markdown.TableOfContents, foldl_append_strConcat, strEmpty_append]

/-- C1: every API operation, in both implementation variants, only appends
to the buffer: for any state and any operation with any arguments, the
`GetContent()` value before the call is a prefix of the value after the
call (for V2, "after the call" means the call returned, i.e. did not
panic).  The buffer is never truncated, reordered, or rewritten. -/
theorem c1_buffer_append_only :
    (∀ (op : V1.Op) (md : V1.Markdown),
        ∃ t, (V1.apply op md).GetContent = md.GetContent ++ t) ∧
    (∀ (op : V2.Op) (md md' : V2.Markdown), V2.apply op md = some md' →
        ∃ t, md'.GetContent = md.GetContent ++ t) :=
  ⟨fun op md => v1_apply_extends op md, fun op md md' h => v2_apply_extends op md md' h⟩

theorem c1_buffer_append_only_witness :
    ∃ t, (V2.Markdown.HorizontalRule V2.New).GetContent = V2.New.GetContent ++ t :=
  c1_buffer_append_only.2 .horizontalRule V2.New (V2.Markdown.HorizontalRule V2.New) rfl

/-- C2: `tableOfContents()` appends the `## Table of Contents` header and
then exactly one bullet line per logged heading, in emission order
(`V2.tocLine` reproduces the heading's rendered text — its `#` prefix
included — plus the ` {#id}` suffix when an id was supplied); the heading
log after any successful call sequence is the log before it plus the
records of the headings emitted, in order, never reordered or
deduplicated; and in the concrete two-headings / TOC / third-heading / TOC
scenario the first TOC block lists exactly 2 entries and the second
exactly 3, the first block never being retroactively updated. -/
theorem c2_toc_replays_heading_log :
    (∀ md : V2.Markdown,
        md.TableOfContents.GetContent =
          md.GetContent ++
            ("## Table of Contents\n" ++ strConcat (md.headings.map V2.tocLine) ++ "\n")) ∧
    (∀ md : V2.Markdown, md.TableOfContents.headings = md.headings) ∧
    (∀ (ops : List V2.Op) (md md' : V2.Markdown), V2.applyOps ops md = some md' →
        md'.headings = md.headings ++ headingRecords ops) ∧
    V2.applyOps
        [.heading 1 "A" "", .heading 2 "B" "x", .tableOfContents, .heading 3 "C" "",
          .tableOfContents] V2.New =
      some
        { content := "# A\n\n## B \x7b#x\x7d\n\n## Table of Contents\n- # A\n- ## B \x7b#x\x7d\n\n### C\n\n## Table of Contents\n- # A\n- ## B \x7b#x\x7d\n- ### C\n\n",
          headings := [{ Text := "# A", ID := "" }, { Text := "## B", ID := "x" },
            { Text := "### C", ID := "" }] } := by
  refine ⟨fun md => v2_toc_content md, fun md => rfl, fun ops md md' h => applyOps_headings ops md md' h, ?_⟩
  decide

theorem c2_toc_replays_heading_log_witness :
    (V2.Markdown.Heading V2.New 1 "A" "").headings =
      V2.New.headings ++ headingRecords [.heading 1 "A" ""] :=
  c2_toc_replays_heading_log.2.2.1 [.heading 1 "A" ""] V2.New
    (V2.Markdown.Heading V2.New 1 "A" "") rfl

theorem clamp_toNat (level : Int) :
    (if level < 1 || level > 6 then (1 : Int) else level).toNat = clampNat level := by
  simp only [clampNat, Bool.or_eq_true, decide_eq_true_eq]
  split_ifs <;> omega

/-- C4: for every integer level and non-empty text, `heading` appends
exactly `clampNat level` hash characters, a space, the text, the
` {#id}` suffix when a non-empty id is supplied, and two newlines —
nothing else — in both variants (V1 called with empty `attributes`, which
the claim's three-argument `heading` corresponds to); and
`heading(7, "X", "")` behaves identically to `heading(1, "X", "")`. -/
theorem c4_heading_format :
    (∀ (md : V1.Markdown) (level : Int) (text id : String), text ≠ "" →
        (md.Heading level text id "").GetContent =
          md.GetContent ++ headingFragment level text id) ∧
    (∀ (md : V2.Markdown) (level : Int) (text id : String), text ≠ "" →
        (md.Heading level text id).GetContent =
          md.GetContent ++ headingFragment level text id) ∧
    (∀ md : V1.Markdown, md.Heading 7 "X" "" "" = md.Heading 1 "X" "" "") ∧
    (∀ md : V2.Markdown, md.Heading 7 "X" "" = md.Heading 1 "X" "") := by
  refine ⟨?_, ?_, fun md => rfl, fun md => rfl⟩
  · intro md level text id h
    simp only [V1.Markdown.GetContent, V1.Markdown.Heading, if_neg h, headingFragment,
      clamp_toNat]
    by_cases hid : id = "" <;>
      simp [hid, strAppend_assoc, strAppend_empty]
  · intro md level text id _
    simp only [V2.Markdown.GetContent, V2.Markdown.Heading, headingFragment, clamp_toNat]
    by_cases hid : id = "" <;>
      simp [hid, strAppend_assoc, strAppend_empty]

theorem c4_heading_format_witness :
    ("X" : String) ≠ "" ∧
      (V1.Markdown.Heading (V1.New 0 false) 2 "X" "x" "").GetContent =
        (V1.New 0 false).GetContent ++ headingFragment 2 "X" "x" :=
  ⟨by decide, c4_heading_format.1 (V1.New 0 false) 2 "X" "x" (by decide)⟩

/-- C7 (corrected): V1's `FrontMatter` behaves exactly as the claim
states — it appends a `---` fence, then one `key: "value"` line for
exactly the keys `title`, `author`, `date` present in the mapping, in
that fixed order, then a closing fence and a blank line, silently
dropping every other key, so with `{title: "T", extra: "ignored"}` only
the title line is emitted and `"ignored"` never appears.  V2's
`FrontMatter`, however, iterates the whole mapping and emits one
`key: "value"` line per entry (in the map's iteration order), so extra
keys are NOT dropped there and `"ignored"` does appear in its output. -/
theorem c7_front_matter_amended :
    (∀ (md : V1.Markdown) (metadata : List (String × String)),
        (md.FrontMatter metadata).GetContent =
          md.GetContent ++ ("---\n" ++ strConcat (frontMatterLines metadata) ++ "---\n\n")) ∧
    (V1.Markdown.FrontMatter (V1.New 0 false) [("title", "T"), ("extra", "ignored")]).GetContent =
      "---\ntitle: \"T\"\n---\n\n" ∧
    ¬ ("ignored".data <:+:
        (V1.Markdown.FrontMatter (V1.New 0 false)
          [("title", "T"), ("extra", "ignored")]).GetContent.data) ∧
    (∀ (md : V2.Markdown) (metadata : List (String × String)),
        (md.FrontMatter metadata).GetContent =
          md.GetContent ++
            ("---\n" ++
              strConcat (metadata.map (fun kv => kv.1 ++ ": \"" ++ kv.2 ++ "\"\n")) ++
              "---\n\n")) ∧
    ("ignored".data <:+:
        (V2.Markdown.FrontMatter V2.New
          [("title", "T"), ("extra", "ignored")]).GetContent.data) := by
  refine ⟨?_, by decide, by decide, ?_, by decide⟩
  · intro md metadata
    cases h1 : metadata.lookup "title" <;> cases h2 : metadata.lookup "author" <;>
      cases h3 : metadata.lookup "date" <;>
        simp [V1.Markdown.FrontMatter, V1.Markdown.GetContent, frontMatterLines, h1, h2, h3,
          strConcat, strAppend_assoc, strAppend_empty, strEmpty_append]
  · intro md metadata
    simp only [V2.Markdown.FrontMatter, V2.Markdown.GetContent,
      foldl_append_strConcat (fun kv : String × String => kv.1 ++ ": \"" ++ kv.2 ++ "\"\n")
        metadata "",
      strEmpty_append]

/-- C7 counterexample: the claim asserts that with
`{title: "T", extra: "ignored"}` the string `"ignored"` never appears in
the output, but the cited `FrontMatter` of part_002 emits a line for
every key of the mapping, so `"ignored"` occurs in its output (it does
so under every map iteration order, since every entry is emitted) and
the emitted block is not the title-only one the claim asserts. -/
theorem c7_front_matter_counterexample :
    ("ignored".data <:+:
        (V2.Markdown.FrontMatter V2.New
          [("title", "T"), ("extra", "ignored")]).GetContent.data) ∧
    (V2.Markdown.FrontMatter V2.New [("title", "T"), ("extra", "ignored")]).GetContent ≠
      "---\ntitle: \"T\"\n---\n\n" := by
  decide

/-- C9: the two formatting-application variants are not extensionally
equal: V1's reverse-iterating `ApplyFormatting` puts the first-listed
format outermost, V2's forward-iterating `applyFormatting` puts the
last-listed format outermost, so on `("bold", "italic")` one yields
`**_text_**` and the other `_**text**_`. -/
theorem c9_formatting_order_differs :
    V1.Markdown.ApplyFormatting (V1.New 0 false) "text" ["bold", "italic"] = "**_text_**" ∧
    V2.Markdown.applyFormatting V2.New "text" ["bold", "italic"] = "_**text**_" ∧
    V1.Markdown.ApplyFormatting (V1.New 0 false) "text" ["bold", "italic"] ≠
      V2.Markdown.applyFormatting V2.New "text" ["bold", "italic"] := by
  decide

/-- C10: `Escape`, `ColorText`, `ToHTML` and `GetContent` are pure
queries: their bodies perform no write, so the receiver state after the
call is the state before it (`GetContent` in particular is unchanged),
and their results do not depend on anything but the relevant state fields
and arguments (changing the inert `flavor` field never changes any query
result). -/
theorem c10_queries_pure :
    (∀ (q : V1.QueryOp) (md : V1.Markdown), (V1.runQuery q md).2 = md) ∧
    (∀ (q : V1.QueryOp) (md : V1.Markdown),
        (V1.runQuery q md).2.GetContent = md.GetContent) ∧
    (∀ (q : V1.QueryOp) (md : V1.Markdown) (f : Int),
        (V1.runQuery q { md with flavor := f }).1 = (V1.runQuery q md).1) := by
  refine ⟨fun q md => ?_, fun q md => ?_, fun q md f => ?_⟩ <;> cases q <;> rfl

theorem taskLinesV1_pad (items : List String) :
    ∀ (checked : List Bool) (k : Nat),
      V1.taskLinesV1 items (checked ++ List.replicate k false) = V1.taskLinesV1 items checked := by
  induction items with
  | nil => intro checked k; rfl
  | cons item items ih =>
    intro checked k
    cases checked with
    | nil =>
      cases k with
      | zero => rfl
      | succ k =>
        simp only [List.nil_append, List.replicate_succ, V1.taskLinesV1, List.headD, List.tail]
        rw [show List.replicate k false = [] ++ List.replicate k false from rfl, ih [] k]
    | cons c rest =>
      simp only [List.cons_append, V1.taskLinesV1, List.headD, List.tail]
      rw [ih rest k]

theorem taskLinesV2_short (items : List String) :
    ∀ checked : List Bool, checked.length < items.length → V2.taskLinesV2 items checked = none := by
  induction items with
  | nil => intro checked h; exact absurd h (Nat.not_lt_zero _)
  | cons item items ih =>
    intro checked h
    cases checked with
    | nil => rfl
    | cons c rest =>
      simp only [V2.taskLinesV2, ih rest (by simpa using h), Option.map_none']

/-- C5 (corrected): in V1, `taskList` is total and behaves exactly as the
claim states — a checked index beyond the end of `checked` is treated as
unchecked (padding `checked` with `false` never changes the output), an
empty item is skipped individually without breaking the loop, and
`taskList(["A","B"], [true])` appends `"- [x] A\n- [ ] B\n\n"`.  In V2,
however, `TaskList` reads `checked[i]` without a bounds check, so whenever
`checked` is shorter than `items` the call panics instead of returning
normally — the claim's no-fault guarantee fails there. -/
theorem c5_task_list_amended :
    (∀ (md : V1.Markdown) (items : List String) (checked : List Bool) (k : Nat),
        md.TaskList items (checked ++ List.replicate k false) = md.TaskList items checked) ∧
    (∀ (items : List String) (checked : List Bool),
        V1.taskLinesV1 ("" :: items) checked = V1.taskLinesV1 items checked.tail) ∧
    (V1.Markdown.TaskList (V1.New 0 false) ["A", "B"] [true]).GetContent =
      "- [x] A\n- [ ] B\n\n" ∧
    (∀ (md : V2.Markdown) (items : List String) (checked : List Bool),
        checked.length < items.length → md.TaskList items checked = none) := by
  refine ⟨?_, ?_, by decide, ?_⟩
  · intro md items checked k
    simp only [V1.Markdown.TaskList, taskLinesV1_pad]
  · intro items checked
    simp [V1.taskLinesV1, strEmpty_append]
  · intro md items checked h
    simp [V2.Markdown.TaskList, taskLinesV2_short items checked h]

theorem c5_task_list_amended_witness :
    V2.Markdown.TaskList V2.New ["A", "B"] [true] = none :=
  c5_task_list_amended.2.2.2 V2.New ["A", "B"] [true] (by decide)

/-- C5 counterexample: the claim says `taskList(["A","B"], [true])`
returns normally (treating the missing flag as unchecked) and appends
`"- [x] A\n- [ ] B\n\n"`; V2's `TaskList` instead panics (`none`) on that
exact input, because it indexes `checked[1]` out of range. -/
theorem c5_task_list_counterexample :
    V2.Markdown.TaskList V2.New ["A", "B"] [true] = none ∧
    ∀ md' : V2.Markdown, V2.Markdown.TaskList V2.New ["A", "B"] [true] ≠ some md' := by
  refine ⟨by decide, fun md' h => ?_⟩
  rw [show V2.Markdown.TaskList V2.New ["A", "B"] [true] = none from by decide] at h
  exact Option.noConfusion h

theorem table_rows_fold (n : Nat) (rows : List (List String)) :
    ∀ init : String,
      rows.foldl (fun acc row => if row.length ≠ n then acc else acc ++ rowLineOf row) init =
        init ++ strConcat ((rows.filter (fun row => row.length = n)).map rowLineOf) := by
  induction rows with
  | nil => intro init; simp [strConcat, strAppend_empty]
  | cons row rows ih =>
    intro init
    simp only [List.foldl_cons, List.filter_cons]
    by_cases h : row.length = n
    · rw [if_neg (not_not_intro h), if_pos (by simpa using h), ih, List.map_cons]
      simp only [strConcat, strAppend_assoc]
    · rw [if_pos h, if_neg (by simpa using h), ih]

theorem alignV1_fold (align : List String) :
    align.foldl (fun acc a => acc ++ V1.alignCell a) "|" =
      "|" ++ strConcat (align.map V1.alignCell) :=
  foldl_append_strConcat V1.alignCell align "|"

theorem alignV2_shift (align : List String) (x : String) :
    strConcat (align.map V2.alignCellV2) ++ ("|" ++ x) =
      "|" ++ (strConcat (align.map V1.alignCell) ++ x) := by
  induction align with
  | nil => simp [strConcat, strEmpty_append]
  | cons a align ih =>
    simp only [List.map_cons, strConcat, strAppend_assoc, ih]
    have hcell : V2.alignCellV2 a ++ "|" = "|" ++ V1.alignCell a := by
      simp only [V2.alignCellV2, V1.alignCell]
      split_ifs <;> decide
    calc V2.alignCellV2 a ++ ("|" ++ (strConcat (align.map V1.alignCell) ++ x)) =
          (V2.alignCellV2 a ++ "|") ++ (strConcat (align.map V1.alignCell) ++ x) := by
            rw [strAppend_assoc]
      _ = ("|" ++ V1.alignCell a) ++ (strConcat (align.map V1.alignCell) ++ x) := by
            rw [hcell]
      _ = "|" ++ (V1.alignCell a ++ (strConcat (align.map V1.alignCell) ++ x)) := by
            rw [strAppend_assoc]

theorem alignV2_row (align : List String) (x : String) :
    strConcat (align.map V2.alignCellV2) ++ ("|\n" ++ x) = alignRowOf align ++ x := by
  have h : ("|\n" ++ x : String) = "|" ++ ("\n" ++ x) := by
    rw [show ("|\n" : String) = "|" ++ "\n" from by decide, strAppend_assoc]
  rw [h, alignV2_shift, alignRowOf]
  simp [strAppend_assoc]

/-- C3 (corrected): for non-empty headers and rows, V1's `Table` appends
the header row, then one alignment cell per `align` entry (`:---|`,
`:---:|`, `---:|`, `---|`), then exactly the rows whose cell count equals
the header count — every other row is skipped individually, and a valid
row after a skipped one is still emitted (the concrete mixed example
shows it); the concrete `["Name","Age"] / [["John","30"]] /
["left","center"]` call appends the exact claimed string.  V2's `Table`,
however, performs no row-length check: it emits every row whatever its
length (and has no emptiness guard), so the claim's skip behaviour fails
on that variant. -/
theorem c3_table_amended :
    (∀ (md : V1.Markdown) (headers : List String) (rows : List (List String))
        (align : List String), headers ≠ [] → rows ≠ [] →
        (md.Table headers rows align).GetContent =
          md.GetContent ++
            (headerLineOf headers ++ alignRowOf align ++
              strConcat ((rows.filter (fun row => row.length = headers.length)).map rowLineOf) ++
              "\n")) ∧
    (∀ (md : V2.Markdown) (headers : List String) (rows : List (List String))
        (align : List String),
        (md.Table headers rows align).GetContent =
          md.GetContent ++
            (headerLineOf headers ++ alignRowOf align ++ strConcat (rows.map rowLineOf) ++ "\n")) ∧
    (V1.Markdown.Table (V1.New 0 false) ["Name", "Age"] [["John", "30"]]
        ["left", "center"]).GetContent = "| Name | Age |\n|:---|:---:|\n| John | 30 |\n\n" ∧
    (V1.Markdown.Table (V1.New 0 false) ["Name", "Age"] [["John"], ["Jane", "25"]]
        ["left", "center"]).GetContent = "| Name | Age |\n|:---|:---:|\n| Jane | 25 |\n\n" := by
  refine ⟨?_, ?_, by decide, by decide⟩
  · intro md headers rows align h1 h2
    have hh : headers.isEmpty = false := by
      cases headers with
      | nil => exact absurd rfl h1
      | cons a l => rfl
    have hr : rows.isEmpty = false := by
      cases rows with
      | nil => exact absurd rfl h2
      | cons a l => rfl
    simp only [V1.Markdown.Table, V1.Markdown.GetContent, hh, hr, Bool.or_self,
      Bool.false_eq_true, if_false]
    rw [alignV1_fold, table_rows_fold headers.length rows ""]
    simp [alignRowOf, strAppend_assoc, strEmpty_append]
  · intro md headers rows align
    simp only [V2.Markdown.Table, V2.Markdown.GetContent,
      foldl_append_strConcat V2.alignCellV2 align "", strEmpty_append]
    simp only [strAppend_assoc]
    rw [alignV2_row]

theorem c3_table_amended_witness :
    (["Name", "Age"] : List String) ≠ [] ∧ ([["John", "30"]] : List (List String)) ≠ [] ∧
      (V1.Markdown.Table (V1.New 0 false) ["Name", "Age"] [["John", "30"]]
          ["left", "center"]).GetContent =
        (V1.New 0 false).GetContent ++
          (headerLineOf ["Name", "Age"] ++ alignRowOf ["left", "center"] ++
            strConcat
              (([["John", "30"]].filter
                  (fun row => row.length = (["Name", "Age"] : List String).length)).map
                rowLineOf) ++
            "\n") :=
  ⟨by decide, by decide,
    c3_table_amended.1 (V1.New 0 false) ["Name", "Age"] [["John", "30"]] ["left", "center"]
      (by decide) (by decide)⟩

/-- C3 counterexample: the claim says a row whose length differs from the
header count is skipped; V2's `Table` emits the one-cell row `["John"]`
against the two headers (`"| John |\n"` appears in the output), so on
that implementation the appended text is not the claimed filtered one. -/
theorem c3_table_counterexample :
    (V2.Markdown.Table V2.New ["Name", "Age"] [["John"], ["Jane", "25"]]
        ["left", "center"]).GetContent =
      "| Name | Age |\n|:---|:---:|\n| John |\n| Jane | 25 |\n\n" ∧
    "| Name | Age |\n|:---|:---:|\n| John |\n| Jane | 25 |\n\n" ≠
      "| Name | Age |\n|:---|:---:|\n| Jane | 25 |\n\n" := by
  decide

/-- The spec's single-pass escape: every character of the fixed special
set is prefixed with exactly one backslash, in one left-to-right scan, so
previously inserted backslashes are never escaped again. -/
def escapeSpec (text : String) : String :=
  ⟨text.data.flatMap (fun x => if x ∈ V2.specialCharsV2 then ['\\', x] else [x])⟩

/-- What V1's `Escape` actually computes, pointwise: because its character
set lists the backslash twice, an input backslash is doubled twice (four
output characters); every other special character is escaped once. -/
def escapeSpecV1 (text : String) : String :=
  ⟨text.data.flatMap (fun x =>
    if x = '\\' then ['\\', '\\', '\\', '\\']
    else if x ∈ V2.specialCharsV2 then ['\\', x] else [x])⟩

theorem escapeStep_append (s t : List Char) (c : Char) :
    escapeStep (s ++ t) c = escapeStep s c ++ escapeStep t c := by
  simp [escapeStep]

theorem escapeStep_singleton (x c : Char) :
    escapeStep [x] c = if x = c then ['\\', c] else [x] := by
  simp [escapeStep]

theorem escapeChain_append (cs : List Char) :
    ∀ s t : List Char,
      cs.foldl escapeStep (s ++ t) = cs.foldl escapeStep s ++ cs.foldl escapeStep t := by
  induction cs with
  | nil => intro s t; rfl
  | cons c cs ih =>
    intro s t
    simp only [List.foldl_cons, escapeStep_append]
    exact ih _ _

theorem escapeChain_nil (cs : List Char) : cs.foldl escapeStep [] = [] := by
  induction cs with
  | nil => rfl
  | cons c cs ih =>
    simp only [List.foldl_cons]
    rw [show escapeStep [] c = [] from rfl]
    exact ih

theorem escapeChain_flatMap (cs : List Char) (s : List Char) :
    cs.foldl escapeStep s = s.flatMap (fun x => cs.foldl escapeStep [x]) := by
  induction s with
  | nil => simp [escapeChain_nil]
  | cons x xs ih =>
    rw [show x :: xs = [x] ++ xs from rfl, escapeChain_append, ih]
    simp

theorem escapeChainV2_single (x : Char) :
    V2.specialCharsV2.foldl escapeStep [x] =
      if x ∈ V2.specialCharsV2 then ['\\', x] else [x] := by
  by_cases h1 : x = '\\'
  · subst h1; decide
  by_cases h2 : x = '\x60'
  · subst h2; decide
  by_cases h3 : x = '*'
  · subst h3; decide
  by_cases h4 : x = '_'
  · subst h4; decide
  by_cases h5 : x = '\x7b'
  · subst h5; decide
  by_cases h6 : x = '\x7d'
  · subst h6; decide
  by_cases h7 : x = '['
  · subst h7; decide
  by_cases h8 : x = ']'
  · subst h8; decide
  by_cases h9 : x = '('
  · subst h9; decide
  by_cases h10 : x = ')'
  · subst h10; decide
  by_cases h11 : x = '#'
  · subst h11; decide
  by_cases h12 : x = '+'
  · subst h12; decide
  by_cases h13 : x = '-'
  · subst h13; decide
  by_cases h14 : x = '.'
  · subst h14; decide
  by_cases h15 : x = '!'
  · subst h15; decide
  simp [V2.specialCharsV2, escapeStep_singleton, h1, h2, h3, h4, h5, h6, h7, h8, h9, h10,
    h11, h12, h13, h14, h15]

theorem escapeChainV1_single (x : Char) :
    V1.specialCharsV1.foldl escapeStep [x] =
      if x = '\\' then ['\\', '\\', '\\', '\\']
      else if x ∈ V2.specialCharsV2 then ['\\', x] else [x] := by
  by_cases h1 : x = '\\'
  · subst h1; decide
  by_cases h2 : x = '\x60'
  · subst h2; decide
  by_cases h3 : x = '*'
  · subst h3; decide
  by_cases h4 : x = '_'
  · subst h4; decide
  by_cases h5 : x = '\x7b'
  · subst h5; decide
  by_cases h6 : x = '\x7d'
  · subst h6; decide
  by_cases h7 : x = '['
  · subst h7; decide
  by_cases h8 : x = ']'
  · subst h8; decide
  by_cases h9 : x = '('
  · subst h9; decide
  by_cases h10 : x = ')'
  · subst h10; decide
  by_cases h11 : x = '#'
  · subst h11; decide
  by_cases h12 : x = '+'
  · subst h12; decide
  by_cases h13 : x = '-'
  · subst h13; decide
  by_cases h14 : x = '.'
  · subst h14; decide
  by_cases h15 : x = '!'
  · subst h15; decide
  simp [V1.specialCharsV1, V2.specialCharsV2, escapeStep_singleton, h1, h2, h3, h4, h5, h6,
    h7, h8, h9, h10, h11, h12, h13, h14, h15]

/-- C6 (corrected): V2's `Escape` satisfies the claim in full — for every
input it equals the single-pass escape (`escapeSpec`): each character of
the fixed set `\ \x60 * _ \x7b \x7d [ ] ( ) # + - . !` is prefixed with
exactly one backslash, an input backslash becomes exactly two characters,
and inserted backslashes are never re-escaped, because the backslash
substitution runs first.  V1's `Escape`, however, builds its character
set from the raw string `` `\\` `` (two backslash characters), so the
backslash substitution runs twice and an input backslash becomes FOUR
characters (`escapeSpecV1`); on backslash-free input the two variants
agree, e.g. both map `"a*b"` to `"a\*b"`. -/
theorem c6_escape_amended :
    (∀ (md : V2.Markdown) (text : String), md.Escape text = escapeSpec text) ∧
    (∀ (md : V1.Markdown) (text : String), md.Escape text = escapeSpecV1 text) ∧
    V2.Markdown.Escape V2.New "a*b" = "a\\*b" ∧
    V1.Markdown.Escape (V1.New 0 false) "a*b" = "a\\*b" ∧
    V2.Markdown.Escape V2.New "\\" = "\\\\" := by
  refine ⟨?_, ?_, by decide, by decide, by decide⟩
  · intro md text
    show String.mk (V2.specialCharsV2.foldl escapeStep text.data) = _
    rw [escapeChain_flatMap]
    simp only [escapeSpec, escapeChainV2_single]
  · intro md text
    show String.mk (V1.specialCharsV1.foldl escapeStep text.data) = _
    rw [escapeChain_flatMap]
    simp only [escapeSpecV1, escapeChainV1_single]

/-- C6 counterexample: the claim says an input backslash becomes exactly
two characters; V1's `Escape` maps the one-character string `"\"` to four
backslashes, not two. -/
theorem c6_escape_counterexample :
    V1.Markdown.Escape (V1.New 0 false) "\\" = "\\\\\\\\" ∧
    V1.Markdown.Escape (V1.New 0 false) "\\" ≠ "\\\\" := by
  decide

/-- C8 (corrected): in V1, `Heading` with empty text is a complete no-op
(the state, and hence the buffer, is unchanged; V1 has no heading log at
all).  In V2, however, there is no empty-text guard: `Heading(level, "",
id)` appends the clamped hashes, the space, the optional ` {#id}` suffix
and two newlines to the buffer, and appends a `HeadingRecord` to the log,
so a subsequent `tableOfContents()` lists an entry for it. -/
theorem c8_empty_heading_amended :
    (∀ (md : V1.Markdown) (level : Int) (id attributes : String),
        md.Heading level "" id attributes = md) ∧
    (∀ (md : V2.Markdown) (level : Int) (id : String),
        (md.Heading level "" id).GetContent = md.GetContent ++ headingFragment level "" id ∧
        (md.Heading level "" id).headings =
          md.headings ++ [{ Text := goRepeat "#" (clampNat level) ++ " ", ID := id }]) := by
  refine ⟨fun md level id attributes => rfl, fun md level id => ⟨?_, ?_⟩⟩
  · simp only [V2.Markdown.GetContent, V2.Markdown.Heading, headingFragment, clamp_toNat]
    by_cases hid : id = "" <;> simp [hid, strAppend_assoc, strAppend_empty]
  · simp only [V2.Markdown.Heading, clamp_toNat, strAppend_empty]

theorem c8_empty_heading_counterexample :
    (V2.Markdown.Heading V2.New 1 "" "id").GetContent ≠ V2.New.GetContent ∧
    (V2.Markdown.Heading V2.New 1 "" "id").headings ≠ V2.New.headings := by
  decide
